import Mathlib

/-!
Shallow embedding of the core of `modbus_proxy.py` (the per-device Bridge):
the unit-ID remapping transforms, the TCP (MBAP) and RTU frame readers, the
`write_read` retry gate, and the construction-time remap setup.

Byte streams and frames are lists of natural numbers (byte values); the
Python `dict` used for `unit_id_remapping` is modelled as an insertion-ordered
association list with the exact semantics of `dict.setdefault` and of the
dict comprehension `\x7bv: k for k, v in d.items()\x7d` (later bindings
overwrite earlier ones, position of an overwritten key is kept).
-/

namespace ModbusProxy

/-- A frame or byte stream: a list of byte values. -/
abbrev Frame := List Nat

/-- Python dict lookup on an insertion-ordered association list
(keys are unique, so first match is the binding). -/
def dlookup : List (Nat × Nat) → Nat → Option Nat
  | [], _ => none
  | (k, v) :: rest, x => if x = k then some v else dlookup rest x

/-- Python `d.setdefault(k, v)`: return the existing value if `k` is bound,
otherwise append the binding `(k, v)` and return `v`.  The result pairs the
returned value with the (possibly mutated) dict. -/
def dsetdefault (d : List (Nat × Nat)) (k v : Nat) : Nat × List (Nat × Nat) :=
  match dlookup d k with
  | some w => (w, d)
  | none => (v, d ++ [(k, v)])

/-- Python dict insertion `d[k] = v`: overwrite in place if `k` is bound
(keeping its position), otherwise append. -/
def dinsert : List (Nat × Nat) → Nat → Nat → List (Nat × Nat)
  | [], k, v => [(k, v)]
  | (k1, v1) :: rest, k, v =>
      if k = k1 then (k1, v) :: rest else (k1, v1) :: dinsert rest k v

/-- The dict comprehension `\x7bv: k for k, v in d.items()\x7d` in
`ModBus._transform_reply`: build the inverse map by inserting in insertion
order, so for duplicated values the LAST binding wins. -/
def invMap (d : List (Nat × Nat)) : List (Nat × Nat) :=
  d.foldl (fun acc kv => dinsert acc kv.2 kv.1) []

/-- `ModBus._transform_request`: read `request[6]` (an out-of-range index is
the Python `IndexError`, modelled as `none`), call
`self.unit_id_remapping.setdefault(uid, uid)` — which MUTATES the stored
map — and rewrite byte 6 when the mapped value differs.  Returns the
(possibly rewritten) request together with the updated remapping dict. -/
def transformRequest (remap : List (Nat × Nat)) (request : Frame) :
    Option (Frame × List (Nat × Nat)) :=
  match request[6]? with
  | none => none
  | some uid =>
      let r := dsetdefault remap uid uid
      if uid ≠ r.1 then some (request.set 6 r.1, r.2) else some (request, r.2)

/-- `ModBus._transform_reply`: read `reply[6]`, recompute the inverse map
from the current remapping dict, `setdefault` on that LOCAL inverse (the
stored map is untouched here), and rewrite byte 6 when the inverse value
differs. -/
def transformReply (remap : List (Nat × Nat)) (reply : Frame) : Option Frame :=
  match reply[6]? with
  | none => none
  | some uid =>
      let r := dsetdefault (invMap remap) uid uid
      if uid ≠ r.1 then some (reply.set 6 r.1) else some reply

/-- `reader.readexactly(n)`: succeeds with the first `n` bytes and the rest
of the stream iff at least `n` bytes remain; otherwise the stream models an
EOF and the call raises `IncompleteReadError` (whose `partial` attribute is
the whole remaining stream). -/
def readExactly (n : Nat) (s : List Nat) : Option (List Nat × List Nat) :=
  if n ≤ s.length then some (s.take n, s.drop n) else none

/-- `int.from_bytes(header[4:], "big")` for a 6-byte MBAP prefix: the
big-endian u16 at bytes 4 and 5. -/
def mbapSize (header : List Nat) : Nat :=
  256 * header.getD 4 0 + header.getD 5 0

/-- Outcome of `Connection.read` for the TCP path: a complete frame with the
rest of the stream, or the two `IncompleteReadError` branches distinguished
by `error.partial` — a read that had consumed bytes is logged as a reading
error (the spec's ShortFrame), a zero-byte read as a benign client close. -/
inductive ReadOutcome where
  | frame (f : Frame) (rest : List Nat)
  | shortFrame
  | benignClose
  deriving DecidableEq, Repr

/-- `Connection._read` (TCP branch, identical in `Client._read`) wrapped in
`Connection.read`'s except-handler: read exactly 6 header bytes, then
exactly `mbapSize header` more.  A failing `readexactly` call with a
nonempty `partial` is `shortFrame`; with an empty `partial` it is
`benignClose`. -/
def connRead (s : List Nat) : ReadOutcome :=
  match readExactly 6 s with
  | none => if s.isEmpty then .benignClose else .shortFrame
  | some (header, rest) =>
      match readExactly (mbapSize header) rest with
      | none => if rest.isEmpty then .benignClose else .shortFrame
      | some (body, rest2) => .frame (header ++ body) rest2

/-- `Connection._read_rtu`: 1-byte slave id, 1-byte function code, then a
body whose length the code takes from the REQUEST table — 4 bytes for
function codes 0x01–0x04 and 0x05–0x06, `4 + 1 + N` for 0x0F/0x10, and 0
bytes for every other function code (no branch raises) — then a 2-byte CRC.
Returns the assembled frame and the unconsumed rest of the stream. -/
def readRTU (s : List Nat) : Option (Frame × List Nat) :=
  match readExactly 1 s with
  | none => none
  | some (slave, s1) =>
  match readExactly 1 s1 with
  | none => none
  | some (fc, s2) =>
      let fc0 := fc.getD 0 0
      let dataRead : Option (List Nat × List Nat) :=
        if fc0 = 0x01 ∨ fc0 = 0x02 ∨ fc0 = 0x03 ∨ fc0 = 0x04 then
          readExactly 4 s2
        else if fc0 = 0x05 ∨ fc0 = 0x06 then
          readExactly 4 s2
        else if fc0 = 0x0F ∨ fc0 = 0x10 then
          match readExactly 4 s2 with
          | none => none
          | some (ac, s3) =>
            match readExactly 1 s3 with
            | none => none
            | some (bc, s4) =>
              match readExactly (bc.getD 0 0) s4 with
              | none => none
              | some (d, s5) => some (ac ++ bc ++ d, s5)
        else some ([], s2)
      match dataRead with
      | none => none
      | some (data, s6) =>
        match readExactly 2 s6 with
        | none => none
        | some (crc, s7) => some (slave ++ fc ++ data ++ crc, s7)

/-- `ModBus.write_read`: under the lock, loop over `attempts` attempts; each
attempt either yields a reply (`some r`: connect and `_write_read` both
succeeded) or fails (`none`: any exception — connect error, write error,
read error or timeout), in which case the handler logs, `await self.close()`
runs, and the loop continues.  Falling off the loop returns Python `None`.
The result pairs the returned value with the number of `close()` calls. -/
def writeRead : List (Option Frame) → Option Frame × Nat
  | [] => (none, 0)
  | some r :: _ => (some r, 0)
  | none :: rest => ((writeRead rest).1, (writeRead rest).2 + 1)

/-- `ModBus.__init__` remapping setup:
`config.get("unit_id_remapping") or \x7b\x7d` — a missing key (Python
`None`) and an empty dict are both replaced by the empty dict; any other
value is stored verbatim.  No validation of any kind is performed and no
exception is raised. -/
def modBusInitRemap (cfg : Option (List (Nat × Nat))) : List (Nat × Nat) :=
  match cfg with
  | none => []
  | some m => if m.isEmpty then [] else m

/-- Injectivity of a remapping on its declared domain: no two bindings share
a value. -/
def remapInjectiveOnValues (m : List (Nat × Nat)) : Prop :=
  ∀ p ∈ m, ∀ q ∈ m, p.2 = q.2 → p.1 = q.1

instance (m : List (Nat × Nat)) : Decidable (remapInjectiveOnValues m) := by
  unfold remapInjectiveOnValues; infer_instance

/-- One iteration of `ModBus.handle_client` up to its upstream call:
`request = await client.read(); if not request: break` — an upstream
transaction is issued for this stream iff the client read produced a frame
(a frame always holds at least the 6 header bytes, so it is never falsy). -/
def sessionIssuesUpstream (s : List Nat) : Bool :=
  match connRead s with
  | .frame _ _ => true
  | _ => false

/-- A successful `readexactly` call took exactly the first `n` bytes. -/
theorem readExactly_eq_some {n : Nat} {s t r : List Nat}
    (h : readExactly n s = some (t, r)) :
    t = s.take n ∧ r = s.drop n ∧ n ≤ s.length ∧ t.length = n ∧ s = t ++ r := by
  unfold readExactly at h
  split at h
  · rename_i hle
    simp only [Option.some.injEq, Prod.mk.injEq] at h
    obtain ⟨ht, hr⟩ := h
    subst ht; subst hr
    exact ⟨rfl, rfl, hle, by rw [List.length_take]; omega,
      (List.take_append_drop n s).symm⟩
  · cases h

/-- A one-byte `readexactly` on a nonempty stream. -/
theorem readExactly_cons_one (a : Nat) (l : List Nat) :
    readExactly 1 (a :: l) = some ([a], l) := by
  unfold readExactly
  rw [if_pos (by simp)]
  rfl

/-- A two-byte `readexactly` on a stream holding at least two bytes. -/
theorem readExactly_cons_two (a b : Nat) (l : List Nat) :
    readExactly 2 (a :: b :: l) = some ([a, b], l) := by
  unfold readExactly
  rw [if_pos (by simp)]
  rfl

/-- C1.  The claimed invertibility law fails on the code.  With the injective
remap 17 ↦ 34, a first request carrying unit-ID 34 makes
`setdefault` insert the identity binding 34 ↦ 34 into the forward map; a
second request carrying unit-ID 17 is rewritten to 34, but the reply
(unit-ID byte 34) is inverted through the recomputed inverse map — where the
later identity binding overwrites 34 ↦ 17 — and comes back as 34, not the
client's original 17. -/
theorem c1_remap_not_inverted :
    transformRequest [(17, 34)] [0, 1, 0, 0, 0, 6, 34, 3, 0, 0, 0, 10] =
      some ([0, 1, 0, 0, 0, 6, 34, 3, 0, 0, 0, 10], [(17, 34), (34, 34)]) ∧
    transformRequest [(17, 34), (34, 34)] [0, 1, 0, 0, 0, 6, 17, 3, 0, 0, 0, 10] =
      some ([0, 1, 0, 0, 0, 6, 34, 3, 0, 0, 0, 10], [(17, 34), (34, 34)]) ∧
    transformReply [(17, 34), (34, 34)] [0, 1, 0, 0, 0, 23, 34, 3, 20] =
      some [0, 1, 0, 0, 0, 23, 34, 3, 20] ∧
    ([0, 1, 0, 0, 0, 23, 34, 3, 20] : Frame).getD 6 0 = 34 ∧ (34 : Nat) ≠ 17 := by
  decide

/-- C3.  The RTU reader does not use the response table: for a function-code
0x03 reply with byte-count field 0x14 = 20 (claimed body 1 + 20 = 21 bytes,
whole frame 25 bytes) it reads a fixed 4-byte body and yields an 8-byte
frame, leaving 17 bytes unconsumed; for an exception reply (function code
0x83, claimed body 1 byte) it reads a 0-byte body, consuming the exception
code as the CRC low byte. -/
theorem c3_rtu_reads_request_shape :
    readRTU [17, 3, 20, 1, 2, 3, 4, 5, 6, 7, 8, 9, 10, 11, 12, 13, 14, 15,
      16, 17, 18, 19, 20, 171, 205] =
      some ([17, 3, 20, 1, 2, 3, 4, 5],
        [6, 7, 8, 9, 10, 11, 12, 13, 14, 15, 16, 17, 18, 19, 20, 171, 205]) ∧
    readRTU [17, 131, 2, 16, 32] = some ([17, 131, 2, 16], [32]) := by
  decide

/-- C4 counterexample.  Bridge construction does not refuse a non-injective
remapping: the map 17 ↦ 34, 19 ↦ 34 is stored verbatim and no failure
occurs, although the map is not injective on its values. -/
theorem c4_no_injectivity_check :
    modBusInitRemap (some [(17, 34), (19, 34)]) = [(17, 34), (19, 34)] ∧
    ¬ remapInjectiveOnValues [(17, 34), (19, 34)] := by
  decide

/-- C6 counterexample.  For the uncovered function code 0x07 the RTU reader
raises nothing and silently produces a 4-byte frame (slave id, function
code, and two bytes consumed as CRC). -/
theorem c6_uncovered_fc_produces_frame :
    readRTU [17, 7, 170, 187] = some ([17, 7, 170, 187], []) := by
  decide

/-- C8 counterexample.  Forwarding a request whose unit-ID 5 has no entry
mutates the configured forward map: the identity binding 5 ↦ 5 is inserted
into it, so the map is not read-only after construction. -/
theorem c8_forward_map_mutated :
    transformRequest [] [0, 0, 0, 0, 0, 1, 5] =
      some ([0, 0, 0, 0, 0, 1, 5], [(5, 5)]) ∧
    ([(5, 5)] : List (Nat × Nat)) ≠ [] := by
  decide

/-- C9 counterexample.  A client that sends a complete 6-byte MBAP header
announcing a 5-byte body and then closes has consumed 6 of the frame's 11
bytes, yet the session ends as a benign close (the failing `readexactly`
call itself consumed zero bytes), not as a ShortFrame. -/
theorem c9_header_only_close_is_benign :
    connRead [0, 1, 0, 0, 0, 5] = ReadOutcome.benignClose ∧
    ReadOutcome.benignClose ≠ ReadOutcome.shortFrame := by
  decide

/-- C10.  The transforms address byte index 6 unconditionally: the strict
TCP framer accepts a frame whose MBAP length field is 0 and returns the bare
6-byte header, on which both transforms fail (Python `IndexError`); on a
7-byte frame the request transform rewrites byte 6; and on an RTU-shaped
reply the reply transform still rewrites byte 6, not the RTU slave-ID at
byte 0. -/
theorem c10_transform_addresses_byte_six :
    connRead [0, 1, 0, 0, 0, 0] = ReadOutcome.frame [0, 1, 0, 0, 0, 0] [] ∧
    transformRequest [(17, 34)] [0, 1, 0, 0, 0, 0] = none ∧
    transformReply [(17, 34)] [0, 1, 0, 0, 0, 0] = none ∧
    transformRequest [(17, 34)] [0, 1, 0, 0, 0, 1, 17] =
      some ([0, 1, 0, 0, 0, 1, 34], [(17, 34)]) ∧
    transformReply [(17, 34)] [34, 3, 20, 0, 0, 0, 34, 9] =
      some [34, 3, 20, 0, 0, 0, 17, 9] := by
  decide

/-- C4 amended.  Bridge construction performs no injectivity validation: any
nonempty remapping — injective or not — is stored verbatim, and construction
always succeeds. -/
theorem c4_construction_accepts_any_map (m : List (Nat × Nat)) (h : m ≠ []) :
    modBusInitRemap (some m) = m := by
  cases m with
  | nil => exact absurd rfl h
  | cons a l => rfl

/-- Witness for C4 amended at a concrete non-injective map. -/
theorem c4_witness : modBusInitRemap (some [(1, 2), (3, 2)]) = [(1, 2), (3, 2)] :=
  c4_construction_accepts_any_map [(1, 2), (3, 2)] (by decide)

/-- C5.  If every attempt fails, `write_read` closes the upstream link once
per failed attempt (one `close()` per consumed attempt) and falls off the
loop returning Python `None` — a failure value, not a propagated exception
(the embedding is a total function into `Option`). -/
theorem c5_all_attempts_fail_returns_failure (outcomes : List (Option Frame))
    (h : ∀ o ∈ outcomes, o = none) :
    writeRead outcomes = (none, outcomes.length) := by
  induction outcomes with
  | nil => rfl
  | cons a rest ih =>
      have ha : a = none := h a (List.mem_cons_self a rest)
      subst ha
      have hrest := ih (fun o ho => h o (List.mem_cons_of_mem _ ho))
      simp [writeRead, hrest]

/-- Witness for C5 at two failing attempts. -/
theorem c5_witness : writeRead [none, none] = (none, 2) :=
  c5_all_attempts_fail_returns_failure [none, none] (by decide)

/-- C6 amended.  For any function code outside the covered table (not one of
0x01–0x06, 0x0F, 0x10 — exception codes included), the RTU reader silently
reads a zero-byte body and produces the 4-byte frame slave, fc, and the two
bytes consumed as CRC; no error is raised. -/
theorem c6_uncovered_fc_reads_empty_body (slave fc c1 c2 : Nat) (rest : List Nat)
    (h1 : fc ≠ 1) (h2 : fc ≠ 2) (h3 : fc ≠ 3) (h4 : fc ≠ 4)
    (h5 : fc ≠ 5) (h6 : fc ≠ 6) (h15 : fc ≠ 15) (h16 : fc ≠ 16) :
    readRTU (slave :: fc :: c1 :: c2 :: rest) = some ([slave, fc, c1, c2], rest) := by
  simp [readRTU, readExactly_cons_one, readExactly_cons_two,
    h1, h2, h3, h4, h5, h6, h15, h16]

/-- Witness for C6 amended at function code 0x08. -/
theorem c6_witness : readRTU [17, 8, 0, 0, 99] = some ([17, 8, 0, 0], [99]) :=
  c6_uncovered_fc_reads_empty_body 17 8 0 0 [99] (by decide) (by decide)
    (by decide) (by decide) (by decide) (by decide) (by decide) (by decide)

/-- C7.  A TCP read that yields a frame consumed exactly 6 header bytes plus
exactly the announced length: the frame holds the 6-byte header, its total
size is 6 plus the big-endian u16 at bytes 4–5, and the stream splits as the
frame followed by the untouched rest. -/
theorem c7_tcp_frame_exact (s f r : List Nat)
    (h : connRead s = ReadOutcome.frame f r) :
    6 ≤ f.length ∧ f.length = 6 + mbapSize f ∧ s = f ++ r := by
  unfold connRead at h
  split at h
  · split at h <;> cases h
  · rename_i header rest e6
    split at h
    · split at h <;> cases h
    · rename_i body rest2 eb
      injection h with hf hr
      subst hf; subst hr
      obtain ⟨ht, hrest, hle, hlen, hs⟩ := readExactly_eq_some e6
      obtain ⟨ht2, hrest2, hle2, hlen2, hs2⟩ := readExactly_eq_some eb
      have hm : mbapSize (header ++ body) = mbapSize header := by
        unfold mbapSize
        rw [List.getD_append _ _ _ _ (by omega), List.getD_append _ _ _ _ (by omega)]
      refine ⟨by simp [hlen], ?_, ?_⟩
      · rw [hm, List.length_append, hlen, hlen2]
      · rw [hs, hs2, List.append_assoc]

/-- Witness for C7 at a 7-byte frame with length field 1. -/
theorem c7_witness :
    6 ≤ ([0, 0, 0, 0, 0, 1, 9] : List Nat).length ∧
    ([0, 0, 0, 0, 0, 1, 9] : List Nat).length = 6 + mbapSize [0, 0, 0, 0, 0, 1, 9] ∧
    ([0, 0, 0, 0, 0, 1, 9] : List Nat) = [0, 0, 0, 0, 0, 1, 9] ++ [] :=
  c7_tcp_frame_exact [0, 0, 0, 0, 0, 1, 9] [0, 0, 0, 0, 0, 1, 9] [] (by decide)

/-- C8 amended.  The forward map is not read-only: whenever a request's
unit-ID `u` has no entry in the map, `_transform_request`'s `setdefault`
appends the identity binding `u ↦ u` to the configured map itself — the
observed-identity bookkeeping lives inside the forward map. -/
theorem c8_mutation_characterized (m : List (Nat × Nat)) (f : Frame) (u : Nat)
    (h6 : f[6]? = some u) (habs : dlookup m u = none) :
    transformRequest m f = some (f, m ++ [(u, u)]) := by
  simp [transformRequest, h6, dsetdefault, habs]

/-- Witness for C8 amended: unit-ID 7 is absent from the map (1, 2). -/
theorem c8_witness :
    transformRequest [(1, 2)] [9, 9, 9, 9, 9, 9, 7] =
      some ([9, 9, 9, 9, 9, 9, 7], [(1, 2), (7, 7)]) :=
  c8_mutation_characterized [(1, 2)] [9, 9, 9, 9, 9, 9, 7] 7 (by decide) (by decide)

/-- C9 amended.  The ShortFrame / benign-close distinction is made per
`readexactly` call, by whether THAT call had consumed bytes: an empty stream
is a benign close; a close inside the 6-byte header (1–5 bytes present) is a
ShortFrame; a close inside the body of an announced nonempty frame is a
benign close exactly when the header was complete and no body byte arrived
(the failing call consumed zero bytes), and a ShortFrame otherwise.  In
every non-frame outcome the session issues no upstream transaction. -/
theorem c9_partial_read_classification (s : List Nat) :
    (s = [] → connRead s = ReadOutcome.benignClose) ∧
    (s ≠ [] → s.length < 6 → connRead s = ReadOutcome.shortFrame) ∧
    (6 ≤ s.length → s.length < 6 + mbapSize (s.take 6) →
      connRead s =
        if s.length = 6 then ReadOutcome.benignClose else ReadOutcome.shortFrame) ∧
    (connRead s = ReadOutcome.shortFrame ∨ connRead s = ReadOutcome.benignClose →
      sessionIssuesUpstream s = false) := by
  refine ⟨?_, ?_, ?_, ?_⟩
  · rintro rfl; rfl
  · intro hne hlt
    have e6 : readExactly 6 s = none := by
      unfold readExactly
      rw [if_neg (by omega)]
    have hie : s.isEmpty = false := List.isEmpty_eq_false.mpr hne
    simp [connRead, e6, hie]
  · intro hge hlt
    have e6 : readExactly 6 s = some (s.take 6, s.drop 6) := by
      unfold readExactly
      rw [if_pos hge]
    have eb : readExactly (mbapSize (s.take 6)) (s.drop 6) = none := by
      unfold readExactly
      rw [if_neg]
      rw [List.length_drop]
      omega
    by_cases h6 : s.length = 6
    · have hd : s.drop 6 = [] := List.drop_eq_nil_iff.mpr (by omega)
      rw [hd] at eb
      simp [connRead, e6, eb, hd, h6]
    · have hd : s.drop 6 ≠ [] := by
        intro hnil
        have := congrArg List.length hnil
        rw [List.length_drop] at this
        simp at this
        omega
      have hie : (s.drop 6).isEmpty = false := List.isEmpty_eq_false.mpr hd
      simp [connRead, e6, eb, hie, h6]
  · intro h
    rcases h with h | h <;> simp [sessionIssuesUpstream, h]

/-- Witness for C9 amended: a 7-byte stream announcing a 5-byte body is cut
off mid-body with one body byte consumed, a ShortFrame. -/
theorem c9_witness : connRead [0, 1, 0, 0, 0, 5, 9] = ReadOutcome.shortFrame := by
  have h := (c9_partial_read_classification [0, 1, 0, 0, 0, 5, 9]).2.2.1
    (by decide) (by decide)
  simpa using h

end ModbusProxy
